import Mathlib

/-!
# Verification of the guac websocket bridge (`ws_server.go`, `logger.go`)

Shallow embedding of the websocket-to-guacd bridge pumps, the HTTP handler's
lifecycle, and the package logger, together with proofs of the specified
properties.

Byte strings are modelled as `List Nat` (one `Nat` per byte).  The two pump
loops `wsToGuacd` and `guacdToWs` are modelled as functions from the finite
trace of I/O results they observe (messages/instructions read, together with
the `Available()` answer and the outcome of each write) to the list of writes
they perform and the way they terminate.  A trace ends when the next read
fails, which is the only way the Go loops exit the read call.
-/

set_option autoImplicit false

namespace Guac

/-- Byte strings, one `Nat` per byte. -/
abbrev Bytes := List Nat

/-- `MaxGuacMessage` is the maximum size in bytes of one guacamole
instruction / message.  Modelled from the spec: the constant itself is
declared elsewhere in the repository (only its uses `websocketReadBufferSize`
and `websocketWriteBufferSize` are in scope); the spec fixes only that it is
the maximum instruction size, so the concrete value below is the upstream
default.  All general theorems are parameterised over an arbitrary cap. -/
def MaxGuacMessage : Nat := 8192

/-- `internalOpcodeIns` is the reserved internal-control opcode prefix
(`"0."`, the length-prefixed encoding of the empty opcode).  Modelled from
the spec: the constant is declared elsewhere in the repository; the general
theorems are parameterised over an arbitrary prefix. -/
def internalOpcodeIns : Bytes := [48, 46]

/-- `websocketReadBufferSize = MaxGuacMessage` (ws_server.go line 62). -/
def websocketReadBufferSize : Nat := MaxGuacMessage

/-- `websocketWriteBufferSize = MaxGuacMessage * 2` (ws_server.go line 63). -/
def websocketWriteBufferSize : Nat := MaxGuacMessage * 2

/-! ## The outbound pump `guacdToWs` -/

/-- One successful `guacd.ReadSome()` observed by the outbound pump:
the instruction's raw bytes together with the value `guacd.Available()`
returns when consulted right after this read. -/
structure GuacdEvent where
  ins : Bytes
  avail : Bool
deriving Repr, DecidableEq

/-- Outcome of one `WriteMessage` / `Write` call on the peer. -/
inductive WriteOutcome where
  | ok
  | closeSent
  | err
deriving Repr, DecidableEq

/-- How a run of the outbound pump terminated:
`readErr` — `guacd.ReadSome()` failed (trace exhausted);
`cleanClose` — `ws.WriteMessage` returned `websocket.ErrCloseSent`;
`writeErr` — `ws.WriteMessage` failed with any other error. -/
inductive GuacdExit where
  | readErr
  | cleanClose
  | writeErr
deriving Repr, DecidableEq

/-- The outbound pump loop (`guacdToWs`, ws_server.go lines 174–207).

Arguments: the flush cap (`MaxGuacMessage` in the source), the filtered
opcode prefix (`internalOpcodeIns`), the trace of successful reads (the
trace ends where `ReadSome` errors), the outcomes of the successive
`WriteMessage` calls (an exhausted list means all further writes succeed),
and the current contents of the accumulation buffer `buf`.

Returns the list of `WriteMessage (type, payload)` calls that succeeded,
the exit cause, and the residual accumulation buffer at exit.  The
`buf.Write` error branch of the source is dead code (`bytes.Buffer.Write`
always returns a nil error) and so has no counterpart here. -/
def guacdToWs (cap : Nat) (opcode : Bytes) :
    List GuacdEvent → List WriteOutcome → Bytes →
    List (Nat × Bytes) × GuacdExit × Bytes
  | [], _, buf => ([], GuacdExit.readErr, buf)
  | e :: rest, outs, buf =>
    if opcode.isPrefixOf e.ins then
      -- instructions starting with the internal opcode are never sent on
      guacdToWs cap opcode rest outs buf
    else
      let buf' := buf ++ e.ins
      if !e.avail || cap ≤ buf'.length then
        match outs.headD WriteOutcome.ok with
        | WriteOutcome.ok =>
          let r := guacdToWs cap opcode rest outs.tail []
          ((1, buf') :: r.1, r.2)
        | WriteOutcome.closeSent => ([], GuacdExit.cleanClose, buf')
        | WriteOutcome.err => ([], GuacdExit.writeErr, buf')
      else
        guacdToWs cap opcode rest outs buf'

/-! ## The inbound pump `wsToGuacd` -/

/-- One successful `ws.ReadMessage()` observed by the inbound pump:
the websocket message type and the payload. -/
structure WsMsg where
  msgType : Nat
  data : Bytes
deriving Repr, DecidableEq

/-- How a run of the inbound pump terminated. -/
inductive WsExit where
  | readErr
  | writeErr
deriving Repr, DecidableEq

/-- The inbound pump loop (`wsToGuacd`, ws_server.go lines 146–166).

Arguments: the filtered opcode prefix, the trace of successfully read
websocket messages (the trace ends where `ReadMessage` errors) and the
outcomes of the successive `guacd.Write` calls.  Returns the payloads
successfully written to guacd, in order, and the exit cause. -/
def wsToGuacd (opcode : Bytes) :
    List WsMsg → List WriteOutcome → List Bytes × WsExit
  | [], _ => ([], WsExit.readErr)
  | m :: rest, outs =>
    if opcode.isPrefixOf m.data then
      -- messages starting with the internal opcode are never sent to guacd
      wsToGuacd opcode rest outs
    else
      match outs.headD WriteOutcome.ok with
      | WriteOutcome.ok =>
        let r := wsToGuacd opcode rest outs.tail
        (m.data :: r.1, r.2)
      | _ => ([], WsExit.writeErr)

/-! ## The websocket upgrade -/

/-- The parameters `ServeHTTP` hands to the websocket upgrader. -/
structure UpgradeParams where
  subprotocol : String
  readBufferSize : Nat
  writeBufferSize : Nat
deriving Repr, DecidableEq

/-- The upgrade performed by `ServeHTTP` (ws_server.go lines 66–77): the
upgrader is built with `websocketReadBufferSize` / `websocketWriteBufferSize`
and the response header echoes the request's `Sec-Websocket-Protocol`
value unchanged. -/
def upgradeParams (requestedProtocol : String) : UpgradeParams :=
  { subprotocol := requestedProtocol
    readBufferSize := websocketReadBufferSize
    writeBufferSize := websocketWriteBufferSize }

/-! ## The HTTP handler `WebsocketServer.ServeHTTP` -/

/-- Observable side effects of one `ServeHTTP` call, in execution order.
`runPumps` records the launch of the two pumps (carrying how the
synchronously-run outbound pump eventually terminated, which the deferred
cleanup never inspects). -/
inductive Event where
  | onConnect
  | onConnectWs
  | acquireWriter
  | acquireReader
  | runPumps (fate : GuacdExit)
  | releaseReader
  | releaseWriter
  | onDisconnect
  | onDisconnectWs
  | tunnelClose
  | wsClose
deriving Repr, DecidableEq

/-- Which optional callbacks are set on the `WebsocketServer`. -/
structure ServerConfig where
  hasOnConnect : Bool
  hasOnConnectWs : Bool
  hasOnDisconnect : Bool
  hasOnDisconnectWs : Bool
deriving Repr, DecidableEq

/-- The event trace of `WebsocketServer.ServeHTTP` (ws_server.go lines
66–138) as a function of whether the websocket upgrade succeeded, whether
the connect step returned a tunnel, which callbacks are set, and how the
outbound pump terminated.

The trace mirrors the source's control flow: an upgrade failure returns
before any resource exists; `defer ws.Close()` is registered right after the
upgrade, `defer tunnel.Close()` right after a successful connect, and the
disconnect callbacks / release calls are registered after the connect
callbacks ran, so on exit the deferred calls run in last-in-first-out
order: ReleaseReader, ReleaseWriter, OnDisconnectWs, OnDisconnect,
tunnel.Close, ws.Close. -/
def serveHTTP (cfg : ServerConfig) (upgradeOk connectOk : Bool)
    (fate : GuacdExit) : List Event :=
  if !upgradeOk then
    []
  else if !connectOk then
    [Event.wsClose]
  else
    (if cfg.hasOnConnect then [Event.onConnect] else []) ++
    (if cfg.hasOnConnectWs then [Event.onConnectWs] else []) ++
    [Event.acquireWriter, Event.acquireReader, Event.runPumps fate,
     Event.releaseReader, Event.releaseWriter] ++
    (if cfg.hasOnDisconnectWs then [Event.onDisconnectWs] else []) ++
    (if cfg.hasOnDisconnect then [Event.onDisconnect] else []) ++
    [Event.tunnelClose, Event.wsClose]

/-! ## The package logger (`logger.go`) -/

/-- zerolog levels, ordered as in zerolog
(`Trace < Debug < Info < Warn < Error < Fatal < Panic`; `disabled`
suppresses everything). -/
inductive LogLevel where
  | trace
  | debug
  | info
  | warn
  | error
  | fatal
  | panic
  | disabled
deriving Repr, DecidableEq

/-- Numeric rank of a level (zerolog's integer values shifted by one). -/
def LogLevel.rank : LogLevel → Nat
  | LogLevel.trace => 0
  | LogLevel.debug => 1
  | LogLevel.info => 2
  | LogLevel.warn => 3
  | LogLevel.error => 4
  | LogLevel.fatal => 5
  | LogLevel.panic => 6
  | LogLevel.disabled => 8

/-- The sinks a logger can be attached to in this package. -/
inductive Sink where
  | discard
  | stderr
deriving Repr, DecidableEq

/-- A zerolog `Logger`: a sink, a minimum level, and the context fields
accumulated on it. -/
structure Logger where
  w : Sink
  level : LogLevel
  context : List (String × String)
deriving Repr, DecidableEq

/-- An event at level `lvl` passes the logger's level filter
(zerolog: the event fires iff `lvl >= l.level` and the logger is not
disabled). -/
def Logger.shouldLog (l : Logger) (lvl : LogLevel) : Bool :=
  decide (l.level.rank ≤ lvl.rank) && !(decide (l.level = LogLevel.disabled))
    && !(decide (lvl = LogLevel.disabled))

/-- The output a `Msg` call at level `lvl` makes observable: `none` when the
level filter rejects the event or the sink discards the bytes. -/
def Logger.output (l : Logger) (lvl : LogLevel) (msg : String) :
    Option String :=
  if l.shouldLog lvl ∧ l.w = Sink.stderr then some msg else none

/-- `createDefaultLogger` (logger.go lines 18–22):
`zerolog.New(io.Discard).Level(zerolog.Disabled)`. -/
def createDefaultLogger : Logger :=
  { w := Sink.discard, level := LogLevel.disabled, context := [] }

/-- The initial value of the package-level `globalLogger` variable
(logger.go line 13): `globalLogger = createDefaultLogger()`. -/
def globalLogger : Logger := createDefaultLogger

/-- `Logger.UpdateContext` with `c.Str("connection_id", id)` appends the
field to the logger's context (ws_server.go lines 109–111). -/
def updateContextConnId (l : Logger) (id : String) : Logger :=
  { l with context := l.context ++ [("connection_id", id)] }

/-! ## Logger sharing across servers (`NewWebsocketServer`) -/

/-- The two logger cells a `WebsocketServer`'s `logger` pointer can refer
to: the package-global `globalLogger` variable, or a caller-owned logger
variable passed to the constructor. -/
inductive LoggerPtr where
  | globalCell
  | ownCell
deriving Repr, DecidableEq

/-- The mutable logger cells. -/
structure LogHeap where
  globalL : Logger
  ownL : Logger
deriving Repr, DecidableEq

/-- The `logger` field `NewWebsocketServer` / `NewWebsocketServerWs` store
(ws_server.go lines 34–59): the address of the caller's logger when one is
supplied, else the address of the package-global `globalLogger`. -/
def newServerLoggerPtr (logger : Option LoggerPtr) : LoggerPtr :=
  logger.getD LoggerPtr.globalCell

/-- Dereference a logger pointer in the heap. -/
def LogHeap.read (h : LogHeap) : LoggerPtr → Logger
  | LoggerPtr.globalCell => h.globalL
  | LoggerPtr.ownCell => h.ownL

/-- `s.logger.UpdateContext(...)` as performed by `ServeHTTP` for a
connection with identifier `id` (ws_server.go lines 108–111): an in-place
update of whichever logger cell the server's pointer refers to. -/
def serveUpdateContext (h : LogHeap) (p : LoggerPtr) (id : String) :
    LogHeap :=
  match p with
  | LoggerPtr.globalCell => { h with globalL := updateContextConnId h.globalL id }
  | LoggerPtr.ownCell => { h with ownL := updateContextConnId h.ownL id }

/-! ## Theorems -/

/-- C6. On websocket upgrade, the client-requested sub-protocol token from
the `Sec-Websocket-Protocol` header is echoed back unchanged in the upgrade
response, the read buffer is sized to at least the maximum instruction size
(`MaxGuacMessage`) and the write buffer to at least twice that. -/
theorem upgrade_echoes_protocol_and_buffers (p : String) :
    (upgradeParams p).subprotocol = p ∧
    MaxGuacMessage ≤ (upgradeParams p).readBufferSize ∧
    2 * MaxGuacMessage ≤ (upgradeParams p).writeBufferSize := by
  refine ⟨rfl, Nat.le_refl _, ?_⟩
  simp [upgradeParams, websocketWriteBufferSize, Nat.mul_comm]

/-- C7. The package's default logger is a no-op: the package-level logger
`globalLogger` starts as `createDefaultLogger`, which is at the `Disabled`
level and writes to a discarding sink, so no call at any level produces
observable output. -/
theorem default_logger_is_noop :
    globalLogger = createDefaultLogger ∧
    createDefaultLogger.level = LogLevel.disabled ∧
    createDefaultLogger.w = Sink.discard ∧
    ∀ (lvl : LogLevel) (msg : String),
      createDefaultLogger.output lvl msg = none := by
  refine ⟨rfl, rfl, rfl, fun lvl msg => ?_⟩
  simp [Logger.output, Logger.shouldLog, createDefaultLogger]

/-- C10. `ServeHTTP` mutates the server's shared logger in place: a server
constructed without an explicit logger points at the package-global logger
cell, and the per-connection `UpdateContext` call appends that connection's
`connection_id` to the global cell's context, so the field persists there
across subsequent connections — even connections served by a different
server that was also constructed without an explicit logger. -/
theorem serveHTTP_mutates_shared_logger (h : LogHeap) (id1 id2 : String) :
    newServerLoggerPtr none = LoggerPtr.globalCell ∧
    ((serveUpdateContext
        (serveUpdateContext h (newServerLoggerPtr none) id1)
        (newServerLoggerPtr none) id2).read
      (newServerLoggerPtr none)).context
      = h.globalL.context
          ++ [("connection_id", id1), ("connection_id", id2)] := by
  refine ⟨rfl, ?_⟩
  simp [newServerLoggerPtr, serveUpdateContext, LogHeap.read,
    updateContextConnId]

/-- Every payload the outbound pump hands to `WriteMessage` is tagged with
message type `1`, by induction over the trace. -/
lemma guacdToWs_fst_eq_one (cap : Nat) (opcode : Bytes) :
    ∀ (es : List GuacdEvent) (outs : List WriteOutcome) (buf : Bytes)
      (m : Nat × Bytes), m ∈ (guacdToWs cap opcode es outs buf).1 → m.1 = 1 := by
  intro es
  induction es with
  | nil => intro outs buf m hm; simp [guacdToWs] at hm
  | cons e rest ih =>
    intro outs buf m hm
    rw [guacdToWs] at hm
    split at hm
    · exact ih outs buf m hm
    · simp only at hm
      split at hm
      · split at hm
        · simp only [List.mem_cons] at hm
          rcases hm with h1 | h1
          · rw [h1]
          · exact ih outs.tail [] m h1
        · simp at hm
        · simp at hm
      · exact ih outs (buf ++ e.ins) m hm

/-- The inbound pump's behaviour depends only on the payloads of the
messages it reads, not on their websocket message types. -/
lemma wsToGuacd_data_only (opcode : Bytes) :
    ∀ (ms1 ms2 : List WsMsg) (outs : List WriteOutcome),
      ms1.map WsMsg.data = ms2.map WsMsg.data →
      wsToGuacd opcode ms1 outs = wsToGuacd opcode ms2 outs := by
  intro ms1
  induction ms1 with
  | nil =>
    intro ms2 outs h
    cases ms2 with
    | nil => rfl
    | cons b bs => simp at h
  | cons a as ih =>
    intro ms2 outs h
    cases ms2 with
    | nil => simp at h
    | cons b bs =>
      simp only [List.map_cons, List.cons.injEq] at h
      obtain ⟨hd, ht⟩ := h
      rw [wsToGuacd, wsToGuacd, hd]
      split
      · exact ih bs outs ht
      · cases houts : outs.headD WriteOutcome.ok <;>
          simp [houts, ih bs outs.tail ht]

/-- C9. Every transport message flushed by the outbound pump is sent with
websocket message type 1 (text), regardless of payload content, and the
inbound pump ignores the message type of every received transport message:
two traces with identical payloads but arbitrary message types produce
identical runs. -/
theorem pump_message_types (cap : Nat) (opcode : Bytes) :
    (∀ (es : List GuacdEvent) (outs : List WriteOutcome) (buf : Bytes)
       (m : Nat × Bytes),
       m ∈ (guacdToWs cap opcode es outs buf).1 → m.1 = 1) ∧
    (∀ (ms1 ms2 : List WsMsg) (outs : List WriteOutcome),
       ms1.map WsMsg.data = ms2.map WsMsg.data →
       wsToGuacd opcode ms1 outs = wsToGuacd opcode ms2 outs) :=
  ⟨guacdToWs_fst_eq_one cap opcode, wsToGuacd_data_only opcode⟩

/-- Witness for C9 at concrete inputs: the single flushed message of a
one-event trace has type 1, and changing an inbound message's type from 2
(binary) to 1 (text) leaves the run unchanged. -/
theorem pump_message_types_witness :
    ((1, ([5] : Bytes)).1 = 1) ∧
    wsToGuacd [48, 46] [{ msgType := 2, data := [5] }] []
      = wsToGuacd [48, 46] [{ msgType := 1, data := [5] }] [] :=
  ⟨(pump_message_types 4 [48, 46]).1 [{ ins := [5], avail := false }] [] []
      (1, [5]) (by decide),
   (pump_message_types 4 [48, 46]).2 [{ msgType := 2, data := [5] }]
      [{ msgType := 1, data := [5] }] [] (by decide)⟩

/-- C8. In the outbound pump a flush is only ever considered immediately
after appending a non-filtered instruction: an instruction carrying the
reserved internal opcode is dropped with no flush check, so the step leaves
the accumulation buffer untouched and emits nothing, and the pump proceeds
straight to the next tunnel read (blocking there if the trace ends) even
when `Available()` is false at that point and the buffer is non-empty. -/
theorem filtered_instruction_skips_flush (cap : Nat) (opcode : Bytes)
    (e : GuacdEvent) (hp : opcode.isPrefixOf e.ins = true) :
    (∀ (rest : List GuacdEvent) (outs : List WriteOutcome) (buf : Bytes),
       guacdToWs cap opcode (e :: rest) outs buf
         = guacdToWs cap opcode rest outs buf) ∧
    (∀ (outs : List WriteOutcome) (buf : Bytes),
       guacdToWs cap opcode [e] outs buf = ([], GuacdExit.readErr, buf)) := by
  constructor
  · intro rest outs buf
    simp [guacdToWs, hp]
  · intro outs buf
    simp [guacdToWs, hp]

/-- Witness for C8: a filtered instruction read with `Available() = false`
into a non-empty buffer flushes nothing and leaves the buffer in place. -/
theorem filtered_instruction_skips_flush_witness :
    guacdToWs 4 [48, 46] [{ ins := [48, 46, 51], avail := false }] [] [9]
      = ([], GuacdExit.readErr, [9]) :=
  (filtered_instruction_skips_flush 4 [48, 46]
      { ins := [48, 46, 51], avail := false } (by decide)).2 [] [9]

/-- C4. Each pump terminates on its first error and never retries: the
inbound pump returns on a transport read error (exhausted trace) or on any
tunnel write error; the outbound pump returns on a tunnel read error or on
any transport write error, with `websocket.ErrCloseSent` ending the run as
a clean close rather than a loud error.  In every error case the result is
independent of the rest of the trace — the failed operation is not
re-attempted and nothing further is read or written. -/
theorem pumps_stop_on_first_error (cap : Nat) (opcode : Bytes) :
    (∀ (outs : List WriteOutcome),
       wsToGuacd opcode [] outs = ([], WsExit.readErr)) ∧
    (∀ (m : WsMsg) (rest : List WsMsg) (outs : List WriteOutcome),
       opcode.isPrefixOf m.data = false →
       outs.headD WriteOutcome.ok ≠ WriteOutcome.ok →
       wsToGuacd opcode (m :: rest) outs = ([], WsExit.writeErr)) ∧
    (∀ (outs : List WriteOutcome) (buf : Bytes),
       guacdToWs cap opcode [] outs buf = ([], GuacdExit.readErr, buf)) ∧
    (∀ (e : GuacdEvent) (rest : List GuacdEvent) (outs : List WriteOutcome)
       (buf : Bytes),
       opcode.isPrefixOf e.ins = false →
       (!e.avail || cap ≤ (buf ++ e.ins).length) = true →
       outs.headD WriteOutcome.ok = WriteOutcome.closeSent →
       guacdToWs cap opcode (e :: rest) outs buf
         = ([], GuacdExit.cleanClose, buf ++ e.ins)) ∧
    (∀ (e : GuacdEvent) (rest : List GuacdEvent) (outs : List WriteOutcome)
       (buf : Bytes),
       opcode.isPrefixOf e.ins = false →
       (!e.avail || cap ≤ (buf ++ e.ins).length) = true →
       outs.headD WriteOutcome.ok = WriteOutcome.err →
       guacdToWs cap opcode (e :: rest) outs buf
         = ([], GuacdExit.writeErr, buf ++ e.ins)) := by
  refine ⟨fun outs => rfl, ?_, fun outs buf => rfl, ?_, ?_⟩
  · intro m rest outs hp hw
    rw [wsToGuacd]
    rw [if_neg (by simp [hp])]
    cases houts : outs.headD WriteOutcome.ok
    · exact absurd houts hw
    · rfl
    · rfl
  · intro e rest outs buf hp hc hw
    rw [guacdToWs]
    rw [if_neg (by simp [hp])]
    simp only
    rw [if_pos (by simpa using hc), hw]
  · intro e rest outs buf hp hc hw
    rw [guacdToWs]
    rw [if_neg (by simp [hp])]
    simp only
    rw [if_pos (by simpa using hc), hw]

/-- Witness for C4 at concrete inputs: an inbound write error, an outbound
`ErrCloseSent`, and an outbound hard write error each end the run at once,
with further trace entries ignored. -/
theorem pumps_stop_on_first_error_witness :
    wsToGuacd [48, 46] [{ msgType := 1, data := [7] }]
        [WriteOutcome.err] = ([], WsExit.writeErr) ∧
    guacdToWs 4 [48, 46]
        [{ ins := [7], avail := false }, { ins := [8], avail := false }]
        [WriteOutcome.closeSent] [] = ([], GuacdExit.cleanClose, [7]) ∧
    guacdToWs 4 [48, 46]
        [{ ins := [7], avail := false }, { ins := [8], avail := false }]
        [WriteOutcome.err] [] = ([], GuacdExit.writeErr, [7]) :=
  ⟨(pumps_stop_on_first_error 4 [48, 46]).2.1 { msgType := 1, data := [7] }
      [] [WriteOutcome.err] (by decide) (by decide),
   (pumps_stop_on_first_error 4 [48, 46]).2.2.2.1
      { ins := [7], avail := false } [{ ins := [8], avail := false }]
      [WriteOutcome.closeSent] [] (by decide) (by decide) (by decide),
   (pumps_stop_on_first_error 4 [48, 46]).2.2.2.2
      { ins := [7], avail := false } [{ ins := [8], avail := false }]
      [WriteOutcome.err] [] (by decide) (by decide) (by decide)⟩

/-- Batching helper: a run of non-filtered instructions whose joint size
(on top of the current buffer) stays below the cap, with `Available()` true
until the last of them, accumulates silently and is flushed as one message
when `Available()` turns false. -/
lemma guacdToWs_batch_aux (cap : Nat) (opcode : Bytes) :
    ∀ (init : List GuacdEvent) (last : GuacdEvent) (buf : Bytes),
      (∀ e ∈ init, opcode.isPrefixOf e.ins = false) →
      opcode.isPrefixOf last.ins = false →
      (∀ e ∈ init, e.avail = true) →
      last.avail = false →
      (buf ++ ((init ++ [last]).map GuacdEvent.ins).flatten).length < cap →
      guacdToWs cap opcode (init ++ [last]) [] buf
        = ([(1, buf ++ ((init ++ [last]).map GuacdEvent.ins).flatten)],
           GuacdExit.readErr, []) := by
  intro init
  induction init with
  | nil =>
    intro last buf _ hpl _ hav _
    rw [List.nil_append, guacdToWs, if_neg (by simp [hpl])]
    simp only
    rw [if_pos (by simp [hav])]
    simp [guacdToWs]
  | cons e init' ih =>
    intro last buf hp hpl hav hlast hlen
    rw [List.cons_append, guacdToWs,
      if_neg (by simp [hp e (List.mem_cons_self e init')])]
    simp only
    have he : e.avail = true := hav e (List.mem_cons_self e init')
    have hlen2 : buf.length + e.ins.length < cap := by
      simp only [List.cons_append, List.map_cons, List.flatten_cons,
        List.length_append] at hlen
      omega
    have hlen3 : ((buf ++ e.ins)
        ++ ((init' ++ [last]).map GuacdEvent.ins).flatten).length < cap := by
      simp only [List.cons_append, List.map_cons, List.flatten_cons,
        List.length_append] at hlen
      simp only [List.length_append]
      omega
    rw [if_neg (by simp [he]; omega)]
    have := ih last (buf ++ e.ins)
      (fun x hx => hp x (List.mem_cons_of_mem e hx)) hpl
      (fun x hx => hav x (List.mem_cons_of_mem e hx)) hlast hlen3
    rw [this]
    simp [List.append_assoc]

/-- C1. After each append of a non-filtered instruction the outbound pump
flushes the accumulated buffer as one type-1 transport message exactly when
`Available()` is false or the buffer has reached the cap (first conjunct,
both directions of the iff as the two step equations); consequently N small
instructions buffered before any flush yield exactly one transport message
holding all N in order (second conjunct), and an instruction whose size
alone meets the cap is flushed immediately after its append regardless of
availability (third conjunct). -/
theorem outbound_batching (cap : Nat) (opcode : Bytes) :
    (∀ (e : GuacdEvent) (rest : List GuacdEvent) (outs : List WriteOutcome)
       (buf : Bytes),
       opcode.isPrefixOf e.ins = false →
       outs.headD WriteOutcome.ok = WriteOutcome.ok →
       (((!e.avail || cap ≤ (buf ++ e.ins).length) = true →
           guacdToWs cap opcode (e :: rest) outs buf
             = ((1, buf ++ e.ins)
                  :: (guacdToWs cap opcode rest outs.tail []).1,
                (guacdToWs cap opcode rest outs.tail []).2)) ∧
        ((!e.avail || cap ≤ (buf ++ e.ins).length) = false →
           guacdToWs cap opcode (e :: rest) outs buf
             = guacdToWs cap opcode rest outs (buf ++ e.ins)))) ∧
    (∀ (init : List GuacdEvent) (last : GuacdEvent),
       (∀ e ∈ init ++ [last], opcode.isPrefixOf e.ins = false) →
       (∀ e ∈ init, e.avail = true) →
       last.avail = false →
       (((init ++ [last]).map GuacdEvent.ins).flatten).length < cap →
       guacdToWs cap opcode (init ++ [last]) [] []
         = ([(1, ((init ++ [last]).map GuacdEvent.ins).flatten)],
            GuacdExit.readErr, [])) ∧
    (∀ (e : GuacdEvent) (rest : List GuacdEvent) (outs : List WriteOutcome),
       opcode.isPrefixOf e.ins = false →
       outs.headD WriteOutcome.ok = WriteOutcome.ok →
       cap ≤ e.ins.length →
       guacdToWs cap opcode (e :: rest) outs []
         = ((1, e.ins) :: (guacdToWs cap opcode rest outs.tail []).1,
            (guacdToWs cap opcode rest outs.tail []).2)) := by
  refine ⟨?_, ?_, ?_⟩
  · intro e rest outs buf hp houts
    constructor
    · intro hc
      rw [guacdToWs, if_neg (by simp [hp])]
      simp only
      rw [if_pos (by simpa using hc), houts]
    · intro hc
      rw [guacdToWs, if_neg (by simp [hp])]
      simp only
      rw [if_neg (by rw [hc]; simp)]
  · intro init last hp hav hlast hlen
    refine guacdToWs_batch_aux cap opcode init last []
      (fun e he => hp e (List.mem_append_left _ he))
      (hp last (List.mem_append_right _ (List.mem_singleton_self last)))
      hav hlast (by simpa using hlen)
  · intro e rest outs hp houts hlen
    rw [guacdToWs, if_neg (by simp [hp])]
    simp only
    rw [if_pos (by simp [hlen]), houts]
    simp

/-- Witness for C1 at concrete inputs: an append with `Available()` false
flushes, an append with `Available()` true below the cap does not, three
small buffered instructions come out as the single message `[1,2,3]`, and a
cap-sized instruction is flushed at once although `Available()` is true. -/
theorem outbound_batching_witness :
    guacdToWs 4 [48, 46] [{ ins := [7], avail := false }] [] []
      = ((1, ([] : Bytes) ++ [7]) :: (guacdToWs 4 [48, 46] [] [] []).1,
         (guacdToWs 4 [48, 46] [] [] []).2) ∧
    guacdToWs 4 [48, 46] [{ ins := [7], avail := true }] [] []
      = guacdToWs 4 [48, 46] [] [] ([] ++ [7]) ∧
    guacdToWs 4 [48, 46]
        [{ ins := [1], avail := true }, { ins := [2], avail := true },
         { ins := [3], avail := false }] [] []
      = ([(1, (([({ ins := [1], avail := true } : GuacdEvent),
                  { ins := [2], avail := true }]
            ++ [({ ins := [3], avail := false } : GuacdEvent)]).map
              GuacdEvent.ins).flatten)], GuacdExit.readErr, []) ∧
    guacdToWs 4 [48, 46] [{ ins := [1, 2, 3, 4], avail := true }] [] []
      = ((1, [1, 2, 3, 4]) :: (guacdToWs 4 [48, 46] [] [] []).1,
         (guacdToWs 4 [48, 46] [] [] []).2) :=
  ⟨((outbound_batching 4 [48, 46]).1 { ins := [7], avail := false } [] []
      [] (by decide) (by decide)).1 (by decide),
   ((outbound_batching 4 [48, 46]).1 { ins := [7], avail := true } [] []
      [] (by decide) (by decide)).2 (by decide),
   (outbound_batching 4 [48, 46]).2.1
      [{ ins := [1], avail := true }, { ins := [2], avail := true }]
      { ins := [3], avail := false } (by decide) (by decide) (by decide)
      (by decide),
   (outbound_batching 4 [48, 46]).2.2 { ins := [1, 2, 3, 4], avail := true }
      [] [] (by decide) (by decide) (by decide)⟩

/-- An error-free inbound run writes exactly the non-filtered payloads to
guacd, in order, byte-for-byte. -/
lemma wsToGuacd_all_ok (opcode : Bytes) :
    ∀ (ms : List WsMsg),
      wsToGuacd opcode ms []
        = ((ms.map WsMsg.data).filter (fun d => !opcode.isPrefixOf d),
           WsExit.readErr) := by
  intro ms
  induction ms with
  | nil => rfl
  | cons m rest ih =>
    rw [wsToGuacd]
    split
    next hp => simp [List.filter_cons, hp, ih]
    next hp =>
      simp only [Bool.not_eq_true] at hp
      simp [List.filter_cons, hp, ih]

/-- An error-free outbound run conserves the non-filtered bytes: the
concatenation of the flushed payloads followed by the residual buffer is
the initial buffer followed by the non-filtered instructions in order. -/
lemma guacdToWs_all_ok_flatten (cap : Nat) (opcode : Bytes) :
    ∀ (es : List GuacdEvent) (buf : Bytes),
      ((guacdToWs cap opcode es [] buf).1.map Prod.snd).flatten
          ++ (guacdToWs cap opcode es [] buf).2.2
        = buf ++ ((es.filter (fun e => !opcode.isPrefixOf e.ins)).map
            GuacdEvent.ins).flatten := by
  intro es
  induction es with
  | nil => intro buf; simp [guacdToWs]
  | cons e rest ih =>
    intro buf
    rw [guacdToWs]
    split
    next hp => simp [List.filter_cons, hp, ih]
    next hp =>
      simp only [Bool.not_eq_true] at hp
      simp only
      split
      next hc =>
        simp [List.filter_cons, hp, ih, List.append_assoc]
      next hc =>
        simp [List.filter_cons, hp, ih, List.append_assoc]

/-- C2 (amended). A message/instruction whose payload starts with the
reserved internal opcode is dropped and never forwarded; in an error-free
run every other inbound message is written to the tunnel byte-for-byte in
order, and every other outbound instruction is appended byte-for-byte: the
flushed transport messages followed by the bytes still in the accumulation
buffer at termination concatenate to exactly the non-filtered instructions
in order — an instruction still buffered at termination has not been
sent. -/
theorem pumps_filter_and_forward (cap : Nat) (opcode : Bytes) :
    (∀ (ms : List WsMsg),
       wsToGuacd opcode ms []
         = ((ms.map WsMsg.data).filter (fun d => !opcode.isPrefixOf d),
            WsExit.readErr)) ∧
    (∀ (es : List GuacdEvent) (buf : Bytes),
       ((guacdToWs cap opcode es [] buf).1.map Prod.snd).flatten
           ++ (guacdToWs cap opcode es [] buf).2.2
         = buf ++ ((es.filter (fun e => !opcode.isPrefixOf e.ins)).map
             GuacdEvent.ins).flatten) :=
  ⟨wsToGuacd_all_ok opcode, guacdToWs_all_ok_flatten cap opcode⟩

/-- C2 counterexample: the non-filtered instruction `[97]`, read with
`Available()` still true and well below the cap, is appended to the
accumulation buffer but the pump then hits a read error, so the instruction
is never forwarded to the transport (no `WriteMessage` at all) — against
the claim that every non-filtered instruction is forwarded. -/
theorem pumps_forward_counterexample :
    internalOpcodeIns.isPrefixOf ([97] : Bytes) = false ∧
    (guacdToWs MaxGuacMessage internalOpcodeIns
        [{ ins := [97], avail := true }] [] []).1 = [] ∧
    (guacdToWs MaxGuacMessage internalOpcodeIns
        [{ ins := [97], avail := true }] [] []).2.2 = [97] := by
  decide

/-- Every flushed payload stays below twice the cap, provided no single
instruction exceeds the cap and the initial buffer is below the cap. -/
lemma guacdToWs_flush_lt_double (cap : Nat) (opcode : Bytes) :
    ∀ (es : List GuacdEvent) (outs : List WriteOutcome) (buf : Bytes),
      buf.length < cap →
      (∀ e ∈ es, e.ins.length ≤ cap) →
      ∀ m ∈ (guacdToWs cap opcode es outs buf).1, m.2.length < 2 * cap := by
  intro es
  induction es with
  | nil => intro outs buf _ _ m hm; simp [guacdToWs] at hm
  | cons e rest ih =>
    intro outs buf hbuf hins m hm
    rw [guacdToWs] at hm
    split at hm
    · exact ih outs buf hbuf
        (fun x hx => hins x (List.mem_cons_of_mem e hx)) m hm
    · simp only at hm
      split at hm
      next hc =>
        split at hm
        · simp only [List.mem_cons] at hm
          rcases hm with h1 | h1
          · rw [h1]
            simp only [List.length_append]
            have := hins e (List.mem_cons_self e rest)
            omega
          · refine ih outs.tail [] ?_
              (fun x hx => hins x (List.mem_cons_of_mem e hx)) m h1
            simp only [List.length_nil]
            omega
        · simp at hm
        · simp at hm
      next hc =>
        have hc2 : e.avail = true ∧ ¬cap ≤ (buf ++ e.ins).length := by
          simpa using hc
        refine ih outs (buf ++ e.ins) ?_
          (fun x hx => hins x (List.mem_cons_of_mem e hx)) m hm
        exact Nat.lt_of_not_le hc2.2

/-- C3 (amended). Each `WriteMessage` payload of the outbound pump is
strictly below `2 * cap` (fitting the doubled write buffer), provided no
single instruction read from the tunnel exceeds the cap and the buffer
starts below the cap; it is not bounded by the cap itself. -/
theorem flush_size_bounded (cap : Nat) (opcode : Bytes)
    (es : List GuacdEvent) (outs : List WriteOutcome) (buf : Bytes)
    (hbuf : buf.length < cap)
    (hins : ∀ e ∈ es, e.ins.length ≤ cap) :
    ∀ m ∈ (guacdToWs cap opcode es outs buf).1, m.2.length < 2 * cap :=
  guacdToWs_flush_lt_double cap opcode es outs buf hbuf hins

/-- Witness for C3 (amended) at a concrete input. -/
theorem flush_size_bounded_witness :
    (1, ([1, 2, 3] : Bytes)).2.length < 2 * 4 :=
  flush_size_bounded 4 [48, 46] [{ ins := [1, 2, 3], avail := false }] [] []
    (by decide) (by decide) (1, [1, 2, 3]) (by decide)

/-- C3 counterexample: with 8191 bytes already buffered (below the cap, so
no flush yet) a following cap-sized 8192-byte instruction is appended and
the combined 16383-byte buffer is flushed as a single `WriteMessage`
payload exceeding `MaxGuacMessage`. -/
theorem flush_cap_counterexample :
    ((guacdToWs MaxGuacMessage internalOpcodeIns
        [{ ins := 65 :: List.replicate 8190 65, avail := true },
         { ins := 65 :: List.replicate 8191 65, avail := false }] [] []).1.map
       (fun m => m.2.length)) = [16383] ∧
    MaxGuacMessage < 16383 := by
  have hp1 : internalOpcodeIns.isPrefixOf (65 :: List.replicate 8190 65)
      = false := by decide
  have hp2 : internalOpcodeIns.isPrefixOf (65 :: List.replicate 8191 65)
      = false := by decide
  constructor
  · rw [guacdToWs, if_neg (by rw [hp1]; exact Bool.false_ne_true)]
    simp only
    rw [if_neg (by
      simp only [List.nil_append, List.length_cons, List.length_replicate,
        MaxGuacMessage]
      decide)]
    rw [guacdToWs, if_neg (by rw [hp2]; exact Bool.false_ne_true)]
    simp only
    rw [if_pos (by simp only [Bool.not_false, Bool.true_or])]
    simp only [List.headD_nil]
    simp only [guacdToWs, List.map_cons, List.map_nil, List.nil_append,
      List.length_append, List.length_cons, List.length_replicate]
  · decide

/-- C5. For a connection whose connect step succeeds, each set connect
callback fires exactly once and only before the pumps run; on handler exit
— regardless of how the pumps ended — the reader and writer handles are
released, the tunnel is closed and each set disconnect callback fires,
each exactly once and only after the pumps; if the connect step fails,
none of these callbacks fire and no tunnel is closed.  The prefix of the
trace before the `runPumps` event is obtained with `takeWhile`. -/
theorem serveHTTP_lifecycle (cfg : ServerConfig) (fate : GuacdExit) :
    ((serveHTTP cfg true true fate).takeWhile
        (fun ev => ev != Event.runPumps fate)).count Event.onConnect
      = (if cfg.hasOnConnect then 1 else 0) ∧
    ((serveHTTP cfg true true fate).takeWhile
        (fun ev => ev != Event.runPumps fate)).count Event.onConnectWs
      = (if cfg.hasOnConnectWs then 1 else 0) ∧
    (serveHTTP cfg true true fate).count Event.onConnect
      = (if cfg.hasOnConnect then 1 else 0) ∧
    (serveHTTP cfg true true fate).count Event.onConnectWs
      = (if cfg.hasOnConnectWs then 1 else 0) ∧
    (serveHTTP cfg true true fate).count (Event.runPumps fate) = 1 ∧
    (serveHTTP cfg true true fate).count Event.releaseReader = 1 ∧
    (serveHTTP cfg true true fate).count Event.releaseWriter = 1 ∧
    (serveHTTP cfg true true fate).count Event.tunnelClose = 1 ∧
    (serveHTTP cfg true true fate).count Event.onDisconnect
      = (if cfg.hasOnDisconnect then 1 else 0) ∧
    (serveHTTP cfg true true fate).count Event.onDisconnectWs
      = (if cfg.hasOnDisconnectWs then 1 else 0) ∧
    ((serveHTTP cfg true true fate).takeWhile
        (fun ev => ev != Event.runPumps fate)).count Event.releaseReader
      = 0 ∧
    ((serveHTTP cfg true true fate).takeWhile
        (fun ev => ev != Event.runPumps fate)).count Event.releaseWriter
      = 0 ∧
    ((serveHTTP cfg true true fate).takeWhile
        (fun ev => ev != Event.runPumps fate)).count Event.tunnelClose = 0 ∧
    ((serveHTTP cfg true true fate).takeWhile
        (fun ev => ev != Event.runPumps fate)).count Event.onDisconnect
      = 0 ∧
    ((serveHTTP cfg true true fate).takeWhile
        (fun ev => ev != Event.runPumps fate)).count Event.onDisconnectWs
      = 0 ∧
    (serveHTTP cfg true false fate).count Event.onConnect = 0 ∧
    (serveHTTP cfg true false fate).count Event.onConnectWs = 0 ∧
    (serveHTTP cfg true false fate).count Event.onDisconnect = 0 ∧
    (serveHTTP cfg true false fate).count Event.onDisconnectWs = 0 ∧
    (serveHTTP cfg true false fate).count Event.tunnelClose = 0 := by
  obtain ⟨a, b, c, d⟩ := cfg
  cases a <;> cases b <;> cases c <;> cases d <;> cases fate <;> decide

end Guac
